import Mathlib

/-!
Model of the document-chat server: an Express application with two endpoints
(`/api/summarize`, `/api/chat`), an in-memory `vectorStores` map from a
`fileId` to a vector store plus a last-access `timestamp`, and an hourly
`cleanupOldFiles` sweep that evicts entries idle for more than one hour and
unlinks their uploaded file.  The server modelled here is the current
implementation embedded in `document-summarizer/README.md`; the two variants
in `server.ts` are earlier revisions of the same endpoints.  External
collaborators (PDF parsing, text splitting, embeddings, similarity search,
LLM completion) are delegated library calls in the source and appear here as
oracle parameters carried by `Env` and `VectorStoreModel`.  Timestamps are
`Int` milliseconds, matching JS `Date.now()` arithmetic; the filesystem is
the list of file names present in the `uploads/` directory.
-/

/-- Role of one message in the prompt assembled by the chat endpoint. -/
inductive PromptRole
  | system
  | human
  | assistant
deriving DecidableEq

/-- One message of the assembled prompt: a `ChatPromptTemplate` entry after
placeholder substitution. -/
structure PromptMessage where
  role : PromptRole
  content : String
deriving DecidableEq

/-- One prior question/answer turn supplied by the client in `chatHistory`. -/
structure Exchange where
  question : String
  answer : String
deriving DecidableEq

/-- Result oracle for `MemoryVectorStore.similaritySearch query k`: the `k`
most similar chunk texts, or a thrown error message.  Retrieval ranking is
delegated to the vector-store library, so it enters the model abstractly. -/
structure VectorStoreModel where
  retrieve : String → Nat → Except String (List String)

/-- One value of the `vectorStores` map: `\x7b store, timestamp, filename \x7d`. -/
structure SessionEntry where
  store : VectorStoreModel
  timestamp : Int
  filename : String

/-- Server state: the `vectorStores` map, kept as an association list in
insertion order (the order a JS `Map` iterates), and the file names present
in the `uploads/` directory. -/
structure ServerState where
  vectorStores : List (String × SessionEntry)
  uploads : List String

/-- Delegated collaborators: building a vector store from extracted pages
(splitter, embeddings and `MemoryVectorStore.fromDocuments`), the completion
model invoked by the chat chain, and the QA summary chain
(`loadQAStuffChain(model).call`).  An `Except.error` is a thrown error. -/
structure Env where
  buildStore : List String → VectorStoreModel
  llm : List PromptMessage → Except String String
  qa : List String → String → Except String String

/-- An uploaded multipart file as multer presents it: the generated
`filename`, the declared `mimetype`, the byte `size`, and the pages that
`PDFLoader.load` extracts from it (`Except.error` when the loader throws). -/
structure UploadedFile where
  filename : String
  mimetype : String
  size : Nat
  docs : Except String (List String)

/-- Lookup in the `vectorStores` map, as `vectorStores.get k`. -/
def findEntry : List (String × SessionEntry) → String → Option SessionEntry
  | [], _ => none
  | (k', e) :: rest, k => if k' = k then some e else findEntry rest k

/-- Insertion in the `vectorStores` map, as `vectorStores.set k v`: a JS
`Map.set` updates an existing key in place, keeping its iteration position,
and appends a new key at the end. -/
def setEntry (m : List (String × SessionEntry)) (k : String) (v : SessionEntry) :
    List (String × SessionEntry) :=
  if m.any (fun p => p.1 == k) then
    m.map (fun p => if p.1 = k then (k, v) else p)
  else
    m ++ [(k, v)]

/-- TTL of a session: one hour in milliseconds, the `3600000` subtracted from
`Date.now()` to form `oneHourAgo`. -/
def ttlMillis : Int := 3600000

/-- Deletion of one uploaded file, as `fs.unlinkSync` guarded by
`fs.existsSync` in `cleanupOldFiles`. -/
def unlinkIfExists (uploads : List String) (f : String) : List String :=
  if f ∈ uploads then uploads.erase f else uploads

/-- Effect of the `cleanupOldFiles` loop on the `vectorStores` map: every
entry with `timestamp < now - 3600000` is deleted.  The loop only deletes the
entry it is currently visiting, which a JS `Map` iterator permits, so the
live iteration is equivalent to this structural recursion. -/
def sweepMap (now : Int) : List (String × SessionEntry) → List (String × SessionEntry)
  | [] => []
  | (k, e) :: rest =>
    if e.timestamp < now - ttlMillis then sweepMap now rest
    else (k, e) :: sweepMap now rest

/-- Effect of the `cleanupOldFiles` loop on the `uploads/` directory: for
every evicted entry, its `filename` is unlinked when present.  Unlink errors
are caught and logged, so one failure does not abort the rest of the sweep. -/
def sweepUploads (now : Int) : List (String × SessionEntry) → List String → List String
  | [], uploads => uploads
  | (_, e) :: rest, uploads =>
    if e.timestamp < now - ttlMillis then
      sweepUploads now rest (unlinkIfExists uploads e.filename)
    else
      sweepUploads now rest uploads

/-- One run of `cleanupOldFiles` at time `now`, as scheduled by
`setInterval(cleanupOldFiles, 3600000)`. -/
def cleanupOldFiles (now : Int) (s : ServerState) : ServerState :=
  { vectorStores := sweepMap now s.vectorStores,
    uploads := sweepUploads now s.vectorStores s.uploads }

/-- System message of the chat endpoint's `ChatPromptTemplate`. -/
def systemInstruction : String :=
  "You are a helpful AI assistant analyzing a document. Answer questions based on the document content only. If you cannot find the answer in the context provided, say \"I don\x27t have enough information to answer that question based on the document content.\""

/-- The `formattedHistory` computed by the chat handler: each prior exchange
becomes a `human`/`assistant` message pair, in order, flattened. -/
def formattedHistory (h : List Exchange) : List PromptMessage :=
  (h.map (fun ex =>
    [PromptMessage.mk .human ex.question, PromptMessage.mk .assistant ex.answer])).flatten

/-- The prompt `chain.invoke` assembles: the system instruction, the
`chat_history` placeholder filled with the formatted history, then the human
message with the retrieved context and the trimmed question substituted into
the template. -/
def chatPrompt (context question : String) (history : List Exchange) : List PromptMessage :=
  PromptMessage.mk .system systemInstruction ::
    (formattedHistory history ++
      [PromptMessage.mk .human ("Context: " ++ context ++ "\n\nQuestion: " ++ question)])

/-- Observable outcome of one `/api/chat` request.  The `ok` outcome records
the prompt that was forwarded to the completion model together with the
trimmed response and the response timestamp. -/
inductive ChatResult
  | badRequest (error : String)
  | notFound (error : String)
  | serverError (error : String)
  | ok (prompt : List PromptMessage) (response : String) (timestamp : Int)

/-- HTTP status of a chat outcome, as produced by the handler and the
`errorHandler` middleware. -/
def ChatResult.status : ChatResult → Nat
  | .badRequest _ => 400
  | .notFound _ => 404
  | .serverError _ => 500
  | .ok _ _ _ => 200

/-- JS `String.prototype.trim()`: strip leading and trailing whitespace.
Written by structural recursion on the character list so that it evaluates on
concrete strings. -/
def jsTrim (s : String) : String :=
  String.mk (((s.data.dropWhile Char.isWhitespace).reverse.dropWhile
    Char.isWhitespace).reverse)

/-- Falsiness of an optional string field of the JSON body, as JS `!x`:
an absent field and the empty string are falsy. -/
def falsy : Option String → Bool
  | none => true
  | some s => s == ""

/-- One `/api/chat` request at time `now`.  `message` and `fileId` are `none`
when the field is absent from the JSON body; a missing `chatHistory` defaults
to `[]` by destructuring.  Both a similarity-search failure and a completion
failure are caught around `chain.invoke` and rethrown as
`Failed to generate response`, which the `errorHandler` maps to 500. -/
def chatStep (env : Env) (now : Int) (message fileId : Option String)
    (chatHistory : List Exchange) (s : ServerState) : ChatResult × ServerState :=
  if falsy (message.map jsTrim) then
    (.badRequest "Message is required", s)
  else if falsy fileId then
    (.badRequest "FileId is required", s)
  else
    let fid := fileId.getD ""
    match findEntry s.vectorStores fid with
    | none => (.notFound "Document not found. Please upload it again.", s)
    | some data =>
      let s' : ServerState :=
        { s with vectorStores := setEntry s.vectorStores fid { data with timestamp := now } }
      let q := jsTrim (message.getD "")
      match data.store.retrieve q 3 with
      | .error _ => (.serverError "Failed to generate response", s')
      | .ok relevantDocs =>
        let context := String.intercalate "\n" relevantDocs
        match env.llm (chatPrompt context q chatHistory) with
        | .error _ => (.serverError "Failed to generate response", s')
        | .ok response => (.ok (chatPrompt context q chatHistory) (jsTrim response) now, s')

/-- Observable outcome of one `/api/summarize` request, after the
`errorHandler` middleware has mapped thrown errors to statuses: the multer
size limit to 413, a `Only PDF files are allowed` message to 415, and any
other thrown error to 500. -/
inductive SummarizeResult
  | badRequest (error : String)
  | payloadTooLarge (error : String)
  | unsupportedMedia (error : String)
  | serverError (error : String)
  | ok (summary : String) (fileId : String)

/-- HTTP status of a summarize outcome. -/
def SummarizeResult.status : SummarizeResult → Nat
  | .badRequest _ => 400
  | .payloadTooLarge _ => 413
  | .unsupportedMedia _ => 415
  | .serverError _ => 500
  | .ok _ _ => 200

/-- multer file size limit: 10 MB. -/
def fileSizeLimit : Nat := 10 * 1024 * 1024

/-- The fixed RAG question used to generate the summary. -/
def summaryQuestion : String :=
  "Please provide a comprehensive summary of this document. Include the main points and key takeaways."

/-- One `/api/summarize` request at time `now` with an optional uploaded
file.  multer runs before the route handler: `fileFilter` rejects a non-PDF
mimetype (mapped to 415 by the `errorHandler`) and the size limit rejects an
oversized upload (413), in both cases before the file is stored and before
the handler body runs.  An accepted file is written to `uploads/` by
`diskStorage` before the handler executes.  The handler stores the session
entry with `timestamp: Date.now()` before the summary chain is called. -/
def summarizeStep (env : Env) (now : Int) (file : Option UploadedFile)
    (s : ServerState) : SummarizeResult × ServerState :=
  match file with
  | none => (.badRequest "No file uploaded", s)
  | some f =>
    if f.mimetype ≠ "application/pdf" then
      (.unsupportedMedia "Only PDF files are allowed", s)
    else if fileSizeLimit < f.size then
      (.payloadTooLarge "File size too large. Maximum size is 10MB.", s)
    else
      let s1 : ServerState := { s with uploads := f.filename :: s.uploads }
      match f.docs with
      | .error msg => (.serverError msg, s1)
      | .ok docs =>
        if docs.length = 0 then
          (.serverError "No content found in the PDF", s1)
        else
          let store := env.buildStore docs
          let fileId := f.filename
          let s2 : ServerState :=
            { s1 with vectorStores := setEntry s1.vectorStores fileId ⟨store, now, fileId⟩ }
          match store.retrieve summaryQuestion 3 with
          | .error msg => (.serverError msg, s2)
          | .ok relevantDocs =>
            match env.qa relevantDocs summaryQuestion with
            | .error msg => (.serverError msg, s2)
            | .ok text => (.ok text fileId, s2)

/-- One server event: a summarize request, a chat request, or one timer tick
of the cleanup interval. -/
inductive Event
  | summarize (file : Option UploadedFile)
  | chat (message fileId : Option String) (chatHistory : List Exchange)
  | sweep

/-- State transition performed by one event at time `now`. -/
def stepState (env : Env) (now : Int) : Event → ServerState → ServerState
  | .summarize file, s => (summarizeStep env now file s).2
  | .chat m fid h, s => (chatStep env now m fid h s).2
  | .sweep, s => cleanupOldFiles now s

/-- Well-formedness of a server state: a JS `Map` has no duplicate keys, a
directory listing has no duplicate names, and every entry stores its own key
as its `filename` (both handlers set `filename` to the entry's `fileId`). -/
def WFState (s : ServerState) : Prop :=
  (s.vectorStores.map Prod.fst).Nodup ∧ s.uploads.Nodup ∧
    ∀ p ∈ s.vectorStores, p.2.filename = p.1

/-- Constant retrieval oracle used to instantiate the model concretely. -/
def testStore : VectorStoreModel :=
  ⟨fun _ _ => Except.ok ["alpha", "beta", "gamma"]⟩

/-- Concrete environment whose delegated calls all succeed. -/
def testEnv : Env :=
  ⟨fun _ => testStore, fun _ => Except.ok " the answer ", fun _ _ => Except.ok "a summary"⟩

/-- Concrete environment whose summary chain and completion model fail. -/
def failEnv : Env :=
  ⟨fun _ => testStore, fun _ => Except.error "boom", fun _ _ => Except.error "model down"⟩

/-- Session entry last accessed at time 0. -/
def staleEntry : SessionEntry := ⟨testStore, 0, "f1"⟩

/-- Session entry last accessed at time 4000000. -/
def freshEntry : SessionEntry := ⟨testStore, 4000000, "f2"⟩

/-- Concrete state holding one stale and one fresh session, with both backing
files on disk. -/
def testState : ServerState :=
  ⟨[("f1", staleEntry), ("f2", freshEntry)], ["f1", "f2"]⟩

/-- Concrete well-formed PDF upload. -/
def testPdf : UploadedFile :=
  ⟨"f9", "application/pdf", 100, Except.ok ["page one"]⟩

/-- Concrete upload whose mimetype is not PDF. -/
def testTxt : UploadedFile :=
  ⟨"t1", "text/plain", 50, Except.ok []⟩

/-- Session entry last accessed exactly one TTL before time 7200000. -/
def boundaryEntry : SessionEntry := ⟨testStore, 3600000, "f3"⟩

/-- Concrete state holding one stale session and one session whose idle time
at time 7200000 is exactly the TTL. -/
def boundaryState : ServerState :=
  ⟨[("f1", staleEntry), ("f3", boundaryEntry)], ["f1", "f3"]⟩

theorem findEntry_mem {m : List (String × SessionEntry)} {k : String} {e : SessionEntry}
    (h : findEntry m k = some e) : (k, e) ∈ m := by
  induction m with
  | nil => simp [findEntry] at h
  | cons p rest ih =>
    obtain ⟨k', e'⟩ := p
    simp only [findEntry] at h
    split at h
    · rename_i heq
      injection h with he
      subst heq
      subst he
      exact List.mem_cons_self _ _
    · exact List.mem_cons_of_mem _ (ih h)

theorem findEntry_eq_none {m : List (String × SessionEntry)} {k : String}
    (h : k ∉ m.map Prod.fst) : findEntry m k = none := by
  induction m with
  | nil => rfl
  | cons p rest ih =>
    obtain ⟨k', e'⟩ := p
    simp only [List.map_cons, List.mem_cons, not_or] at h
    have hk : k' ≠ k := fun hk => h.1 hk.symm
    simp only [findEntry, if_neg hk]
    exact ih h.2

theorem findEntry_eq_of_mem_nodup {m : List (String × SessionEntry)} {k : String}
    {e : SessionEntry} (hnd : (m.map Prod.fst).Nodup) (hmem : (k, e) ∈ m) :
    findEntry m k = some e := by
  induction m with
  | nil => simp at hmem
  | cons p rest ih =>
    obtain ⟨k', e'⟩ := p
    simp only [List.map_cons, List.nodup_cons] at hnd
    rcases List.mem_cons.mp hmem with hhead | htail
    · injection hhead with hk he
      subst hk
      subst he
      simp [findEntry]
    · have hk : k' ≠ k := by
        rintro rfl
        exact hnd.1 (List.mem_map.mpr ⟨(k', e), htail, rfl⟩)
      simp only [findEntry, if_neg hk]
      exact ih hnd.2 htail

theorem mem_unique_of_nodup_keys {m : List (String × SessionEntry)} {k : String}
    {a b : SessionEntry} (hnd : (m.map Prod.fst).Nodup)
    (ha : (k, a) ∈ m) (hb : (k, b) ∈ m) : a = b := by
  have h1 := findEntry_eq_of_mem_nodup hnd ha
  have h2 := findEntry_eq_of_mem_nodup hnd hb
  rw [h1] at h2
  injection h2

theorem mem_sweepMap {now : Int} {m : List (String × SessionEntry)}
    {p : String × SessionEntry} (h : p ∈ sweepMap now m) :
    p ∈ m ∧ ¬ p.2.timestamp < now - ttlMillis := by
  induction m with
  | nil => simp [sweepMap] at h
  | cons q rest ih =>
    obtain ⟨k, e⟩ := q
    simp only [sweepMap] at h
    split at h
    · exact ⟨List.mem_cons_of_mem _ (ih h).1, (ih h).2⟩
    · rename_i hs
      rcases List.mem_cons.mp h with hhead | htail
      · subst hhead
        exact ⟨List.mem_cons_self _ _, hs⟩
      · exact ⟨List.mem_cons_of_mem _ (ih htail).1, (ih htail).2⟩

theorem findEntry_sweepMap_of_fresh {now : Int} {m : List (String × SessionEntry)}
    {k : String} {e : SessionEntry} (h : findEntry m k = some e)
    (hf : ¬ e.timestamp < now - ttlMillis) :
    findEntry (sweepMap now m) k = some e := by
  induction m with
  | nil => simp [findEntry] at h
  | cons p rest ih =>
    obtain ⟨k', e'⟩ := p
    simp only [findEntry] at h
    split at h
    · rename_i heq
      injection h with he
      subst heq
      subst he
      simp [sweepMap, hf, findEntry]
    · rename_i hne
      simp only [sweepMap]
      split
      · exact ih h
      · simp only [findEntry, if_neg hne]
        exact ih h

theorem findEntry_sweepMap_of_stale {now : Int} {m : List (String × SessionEntry)}
    {k : String} {e : SessionEntry} (hnd : (m.map Prod.fst).Nodup)
    (h : findEntry m k = some e) (hs : e.timestamp < now - ttlMillis) :
    findEntry (sweepMap now m) k = none := by
  induction m with
  | nil => simp [findEntry] at h
  | cons p rest ih =>
    obtain ⟨k', e'⟩ := p
    simp only [List.map_cons, List.nodup_cons] at hnd
    simp only [findEntry] at h
    split at h
    · rename_i heq
      injection h with he
      subst heq
      subst he
      simp only [sweepMap, if_pos hs]
      apply findEntry_eq_none
      intro hmem
      rcases List.mem_map.mp hmem with ⟨q, hq, hq1⟩
      exact hnd.1 (List.mem_map.mpr ⟨q, (mem_sweepMap hq).1, hq1⟩)
    · rename_i hne
      simp only [sweepMap]
      split
      · exact ih hnd.2 h
      · simp only [findEntry, if_neg hne]
        exact ih hnd.2 h

theorem sweepUploads_subset {now : Int} {m : List (String × SessionEntry)}
    {u : List String} {x : String} (h : x ∈ sweepUploads now m u) : x ∈ u := by
  induction m generalizing u with
  | nil => simpa [sweepUploads] using h
  | cons p rest ih =>
    obtain ⟨k, e⟩ := p
    simp only [sweepUploads] at h
    split at h
    · have hx := ih h
      unfold unlinkIfExists at hx
      split at hx
      · exact List.mem_of_mem_erase hx
      · exact hx
    · exact ih h

theorem unlink_nodup {u : List String} {f : String} (h : u.Nodup) :
    (unlinkIfExists u f).Nodup := by
  unfold unlinkIfExists
  split
  · exact h.erase f
  · exact h

theorem mem_unlink_of_ne {u : List String} {f x : String} (hne : x ≠ f) (hx : x ∈ u) :
    x ∈ unlinkIfExists u f := by
  unfold unlinkIfExists
  split
  · exact (List.mem_erase_of_ne hne).mpr hx
  · exact hx

theorem not_mem_unlink_self {u : List String} {f : String} (h : u.Nodup) :
    f ∉ unlinkIfExists u f := by
  unfold unlinkIfExists
  split
  · exact h.not_mem_erase
  · rename_i hf
    exact hf

theorem mem_sweepUploads_of_no_stale {now : Int} {m : List (String × SessionEntry)}
    {u : List String} {x : String} (hx : x ∈ u)
    (h : ∀ p ∈ m, p.2.timestamp < now - ttlMillis → p.2.filename ≠ x) :
    x ∈ sweepUploads now m u := by
  induction m generalizing u with
  | nil => simpa [sweepUploads]
  | cons p rest ih =>
    obtain ⟨k, e⟩ := p
    simp only [sweepUploads]
    split
    · rename_i hs
      have hne : x ≠ e.filename :=
        fun heq => h (k, e) (List.mem_cons_self _ _) hs heq.symm
      exact ih (mem_unlink_of_ne hne hx)
        (fun q hq => h q (List.mem_cons_of_mem _ hq))
    · exact ih hx (fun q hq => h q (List.mem_cons_of_mem _ hq))

theorem not_mem_sweepUploads_of_stale {now : Int} {m : List (String × SessionEntry)}
    {u : List String} {k : String} {e : SessionEntry} (hnd : u.Nodup)
    (hmem : (k, e) ∈ m) (hs : e.timestamp < now - ttlMillis) :
    e.filename ∉ sweepUploads now m u := by
  induction m generalizing u with
  | nil => simp at hmem
  | cons p rest ih =>
    obtain ⟨k', e'⟩ := p
    simp only [sweepUploads]
    rcases List.mem_cons.mp hmem with hhead | htail
    · injection hhead with hk he
      subst hk
      subst he
      rw [if_pos hs]
      intro hcontra
      exact not_mem_unlink_self hnd (sweepUploads_subset hcontra)
    · split
      · exact ih (unlink_nodup hnd) htail
      · exact ih hnd htail

theorem findEntry_map_set_ne {m : List (String × SessionEntry)} {k k' : String}
    {v : SessionEntry} (h : k' ≠ k) :
    findEntry (m.map (fun p => if p.1 = k then (k, v) else p)) k' = findEntry m k' := by
  have hk : k ≠ k' := fun hk => h hk.symm
  induction m with
  | nil => rfl
  | cons p rest ih =>
    obtain ⟨a, b⟩ := p
    simp only [List.map_cons]
    split
    · rename_i ha
      have ha' : a ≠ k' := by
        intro hcontra
        exact h (hcontra ▸ ha)
      simp only [findEntry, if_neg hk, if_neg ha']
      exact ih
    · by_cases ha' : a = k'
      · simp [findEntry, ha']
      · simp only [findEntry, if_neg ha']
        exact ih

theorem findEntry_map_set_self {m : List (String × SessionEntry)} {k : String}
    {v : SessionEntry} (h : m.any (fun p => p.1 == k) = true) :
    findEntry (m.map (fun p => if p.1 = k then (k, v) else p)) k = some v := by
  induction m with
  | nil => simp at h
  | cons p rest ih =>
    obtain ⟨a, b⟩ := p
    simp only [List.map_cons]
    split
    · simp [findEntry]
    · rename_i ha
      have ha' : a ≠ k := by
        intro hcontra
        exact ha (by simpa using hcontra)
      simp only [List.any_cons, Bool.or_eq_true, beq_iff_eq] at h
      rcases h with h | h
      · exact absurd h ha'
      · simp only [findEntry, if_neg ha']
        exact ih h

theorem findEntry_eq_none_of_any_false {m : List (String × SessionEntry)} {k : String}
    (h : m.any (fun p => p.1 == k) = false) : findEntry m k = none := by
  apply findEntry_eq_none
  intro hmem
  rcases List.mem_map.mp hmem with ⟨q, hq, hq1⟩
  have := List.any_eq_false.mp h q hq
  simp only [beq_iff_eq] at this
  exact this hq1

theorem findEntry_append_single_ne {m : List (String × SessionEntry)} {k k' : String}
    {v : SessionEntry} (h : k ≠ k') :
    findEntry (m ++ [(k, v)]) k' = findEntry m k' := by
  induction m with
  | nil => simp [findEntry, if_neg h]
  | cons p rest ih =>
    obtain ⟨a, b⟩ := p
    simp only [List.cons_append, findEntry]
    split
    · rfl
    · exact ih

theorem findEntry_append_single_of_none {m : List (String × SessionEntry)} {k : String}
    {v : SessionEntry} (h : findEntry m k = none) :
    findEntry (m ++ [(k, v)]) k = some v := by
  induction m with
  | nil => simp [findEntry]
  | cons p rest ih =>
    obtain ⟨a, b⟩ := p
    simp only [findEntry] at h
    split at h
    · exact absurd h (by simp)
    · rename_i hne
      simp only [List.cons_append, findEntry, if_neg hne]
      exact ih h

theorem findEntry_setEntry_self (m : List (String × SessionEntry)) (k : String)
    (v : SessionEntry) : findEntry (setEntry m k v) k = some v := by
  unfold setEntry
  split
  · rename_i h
    exact findEntry_map_set_self h
  · rename_i h
    exact findEntry_append_single_of_none
      (findEntry_eq_none_of_any_false (Bool.not_eq_true _ ▸ h))

theorem findEntry_setEntry_ne {m : List (String × SessionEntry)} {k k' : String}
    {v : SessionEntry} (h : k' ≠ k) :
    findEntry (setEntry m k v) k' = findEntry m k' := by
  unfold setEntry
  split
  · exact findEntry_map_set_ne h
  · exact findEntry_append_single_ne (fun hk => h hk.symm)

theorem chatStep_valid_unfold (env : Env) (now : Int) {m fid : String}
    (hm : jsTrim m ≠ "") (hfid : fid ≠ "") (hist : List Exchange) (s : ServerState) :
    chatStep env now (some m) (some fid) hist s =
      match findEntry s.vectorStores fid with
      | none => (.notFound "Document not found. Please upload it again.", s)
      | some data =>
        let s' : ServerState :=
          { s with vectorStores := setEntry s.vectorStores fid { data with timestamp := now } }
        match data.store.retrieve (jsTrim m) 3 with
        | .error _ => (.serverError "Failed to generate response", s')
        | .ok relevantDocs =>
          match env.llm (chatPrompt (String.intercalate "\n" relevantDocs) (jsTrim m) hist) with
          | .error _ => (.serverError "Failed to generate response", s')
          | .ok response =>
            (.ok (chatPrompt (String.intercalate "\n" relevantDocs) (jsTrim m) hist)
              (jsTrim response) now, s')
  := by
  have h1 : falsy ((some m).map jsTrim) = false := by
    simp [falsy, hm]
  have h2 : falsy (some fid) = false := by
    simp [falsy, hfid]
  unfold chatStep
  rw [h1, h2]
  simp

theorem chatStep_snd (env : Env) (now : Int) (ms fileId : Option String)
    (hist : List Exchange) (s : ServerState) :
    (chatStep env now ms fileId hist s).2 = s ∨
    ∃ d, findEntry s.vectorStores (fileId.getD "") = some d ∧
      (chatStep env now ms fileId hist s).2 =
        { s with vectorStores :=
            setEntry s.vectorStores (fileId.getD "") { d with timestamp := now } } := by
  simp only [chatStep]
  split
  · exact Or.inl rfl
  split
  · exact Or.inl rfl
  split
  · exact Or.inl rfl
  · rename_i d hfind
    refine Or.inr ⟨d, hfind, ?_⟩
    split
    · rfl
    split
    · rfl
    · rfl

theorem summarizeStep_vectorStores (env : Env) (now : Int) (file : Option UploadedFile)
    (s : ServerState) :
    (summarizeStep env now file s).2.vectorStores = s.vectorStores ∨
    ∃ f docs, file = some f ∧ f.docs = Except.ok docs ∧
      (summarizeStep env now file s).2.vectorStores =
        setEntry s.vectorStores f.filename ⟨env.buildStore docs, now, f.filename⟩ := by
  unfold summarizeStep
  rcases file with _ | f
  · exact Or.inl rfl
  simp only
  split
  · exact Or.inl rfl
  split
  · exact Or.inl rfl
  rcases hdocs : f.docs with msg | docs
  · exact Or.inl rfl
  simp only
  split
  · exact Or.inl rfl
  refine Or.inr ⟨f, docs, rfl, hdocs, ?_⟩
  split
  · rfl
  split
  · rfl
  · rfl

theorem file_preserved_of_fresh {now : Int} {s : ServerState} {k : String}
    {e : SessionEntry} (hwf : WFState s) (hmem : (k, e) ∈ s.vectorStores)
    (hfresh : ¬ e.timestamp < now - ttlMillis) (hu : e.filename ∈ s.uploads) :
    e.filename ∈ (cleanupOldFiles now s).uploads := by
  obtain ⟨hkeys, hupl, hfn⟩ := hwf
  apply mem_sweepUploads_of_no_stale hu
  rintro ⟨pk, pe⟩ hp hps heq
  have hpk : pe.filename = pk := hfn (pk, pe) hp
  have hek : e.filename = k := hfn (k, e) hmem
  have hkk : pk = k := by rw [← hpk, heq, hek]
  subst hkk
  have hpe : pe = e := mem_unique_of_nodup_keys hkeys hp hmem
  exact hfresh (hpe ▸ hps)

theorem testState_wf : WFState testState := by
  unfold WFState
  refine ⟨by decide, by decide, by decide⟩

theorem boundaryState_wf : WFState boundaryState := by
  unfold WFState
  refine ⟨by decide, by decide, by decide⟩

/-- C1: for every session whose `lastAccess` timestamp is older than the TTL of
one hour relative to the sweep time, one run of the periodic sweep removes that
session from the session map — so a subsequent lookup of its key (a chat
request with that `fileId`) returns NotFound — and deletes its backing source
file from the uploads directory. -/
theorem cleanup_evicts_stale (now : Int) (s : ServerState) (k : String)
    (e : SessionEntry) (hwf : WFState s)
    (hfind : findEntry s.vectorStores k = some e)
    (hstale : now - e.timestamp > ttlMillis) :
    findEntry (cleanupOldFiles now s).vectorStores k = none ∧
    e.filename ∉ (cleanupOldFiles now s).uploads ∧
    ∀ (env : Env) (now2 : Int) (m : String) (hist : List Exchange),
      jsTrim m ≠ "" → k ≠ "" →
      (chatStep env now2 (some m) (some k) hist (cleanupOldFiles now s)).1 =
        ChatResult.notFound "Document not found. Please upload it again." := by
  have hs : e.timestamp < now - ttlMillis := by omega
  obtain ⟨hkeys, hupl, hfn⟩ := hwf
  have h1 : findEntry (sweepMap now s.vectorStores) k = none :=
    findEntry_sweepMap_of_stale hkeys hfind hs
  refine ⟨h1, not_mem_sweepUploads_of_stale hupl (findEntry_mem hfind) hs, ?_⟩
  intro env now2 m hist hm hk
  rw [chatStep_valid_unfold env now2 hm hk hist _]
  have h1' : findEntry (cleanupOldFiles now s).vectorStores k = none := h1
  rw [h1']

/-- Closed instance of C1: at time 7200000 the sweep evicts the session last
accessed at time 0, its file is gone and a later chat on its key is 404. -/
theorem cleanup_evicts_stale_witness :
    findEntry (cleanupOldFiles 7200000 testState).vectorStores "f1" = none ∧
    staleEntry.filename ∉ (cleanupOldFiles 7200000 testState).uploads ∧
    (chatStep testEnv 7300000 (some "hi") (some "f1") []
        (cleanupOldFiles 7200000 testState)).1 =
      ChatResult.notFound "Document not found. Please upload it again." := by
  obtain ⟨h1, h2, h3⟩ :=
    cleanup_evicts_stale 7200000 testState "f1" staleEntry testState_wf rfl (by decide)
  exact ⟨h1, h2, h3 testEnv 7300000 "hi" [] (by decide) (by decide)⟩

/-- C2: eviction and file deletion are paired: when the sweep removes a session
from the map it also deletes that session's backing file, and it never deletes
the file of a session that remains in the map, so a sweep leaves neither
orphaned files nor dangling file references. -/
theorem cleanup_pairs_eviction_with_deletion (now : Int) (s : ServerState)
    (hwf : WFState s) :
    (∀ k e, findEntry s.vectorStores k = some e →
      findEntry (cleanupOldFiles now s).vectorStores k = none →
      e.filename ∉ (cleanupOldFiles now s).uploads) ∧
    (∀ k e, findEntry (cleanupOldFiles now s).vectorStores k = some e →
      e.filename ∈ s.uploads → e.filename ∈ (cleanupOldFiles now s).uploads) := by
  constructor
  · intro k e hfind hgone
    by_cases hs : e.timestamp < now - ttlMillis
    · exact not_mem_sweepUploads_of_stale hwf.2.1 (findEntry_mem hfind) hs
    · have h := findEntry_sweepMap_of_fresh hfind hs
      have hgone' : findEntry (sweepMap now s.vectorStores) k = none := hgone
      rw [hgone'] at h
      cases h
  · intro k e hpost hu
    have hm := mem_sweepMap (findEntry_mem hpost)
    exact file_preserved_of_fresh hwf hm.1 hm.2 hu

/-- Closed instance of C2: at time 7200000 the evicted session's file is gone
while the surviving session's file is intact. -/
theorem cleanup_pairs_eviction_with_deletion_witness :
    staleEntry.filename ∉ (cleanupOldFiles 7200000 testState).uploads ∧
    freshEntry.filename ∈ (cleanupOldFiles 7200000 testState).uploads :=
  ⟨(cleanup_pairs_eviction_with_deletion 7200000 testState testState_wf).1
      "f1" staleEntry rfl rfl,
   (cleanup_pairs_eviction_with_deletion 7200000 testState testState_wf).2
      "f2" freshEntry rfl (by decide)⟩

/-- C3: a session whose idle time at sweep time is at most the TTL is left in
the map by the sweep with its entry unchanged — still retrievable under its
key — and its backing file stays in the uploads directory. -/
theorem cleanup_preserves_fresh (now : Int) (s : ServerState) (k : String)
    (e : SessionEntry) (hwf : WFState s)
    (hfind : findEntry s.vectorStores k = some e)
    (hfresh : now - e.timestamp ≤ ttlMillis) :
    findEntry (cleanupOldFiles now s).vectorStores k = some e ∧
    (e.filename ∈ s.uploads → e.filename ∈ (cleanupOldFiles now s).uploads) := by
  have hf : ¬ e.timestamp < now - ttlMillis := by omega
  exact ⟨findEntry_sweepMap_of_fresh hfind hf,
    fun hu => file_preserved_of_fresh hwf (findEntry_mem hfind) hf hu⟩

/-- Closed instance of C3: the session last accessed at time 4000000 survives
the sweep at time 7200000 with entry and file intact. -/
theorem cleanup_preserves_fresh_witness :
    findEntry (cleanupOldFiles 7200000 testState).vectorStores "f2" = some freshEntry ∧
    (freshEntry.filename ∈ testState.uploads →
      freshEntry.filename ∈ (cleanupOldFiles 7200000 testState).uploads) :=
  cleanup_preserves_fresh 7200000 testState "f2" freshEntry testState_wf rfl (by decide)

/-- C10: the eviction condition is strict: a session whose `lastAccess` equals
exactly `now` minus one hour is not evicted by that sweep run — its entry and
file survive — and every session that run does remove has `lastAccess`
strictly below `now` minus one hour. -/
theorem cleanup_boundary_strict (now : Int) (s : ServerState) (k : String)
    (e : SessionEntry) (hwf : WFState s)
    (hfind : findEntry s.vectorStores k = some e)
    (hb : e.timestamp = now - ttlMillis) :
    findEntry (cleanupOldFiles now s).vectorStores k = some e ∧
    (e.filename ∈ s.uploads → e.filename ∈ (cleanupOldFiles now s).uploads) ∧
    ∀ k' e', findEntry s.vectorStores k' = some e' →
      findEntry (cleanupOldFiles now s).vectorStores k' = none →
      e'.timestamp < now - ttlMillis := by
  have hf : ¬ e.timestamp < now - ttlMillis := by omega
  refine ⟨findEntry_sweepMap_of_fresh hfind hf,
    fun hu => file_preserved_of_fresh hwf (findEntry_mem hfind) hf hu, ?_⟩
  intro k' e' hfind' hgone
  by_contra hfresh
  have h := findEntry_sweepMap_of_fresh hfind' hfresh
  have hgone' : findEntry (sweepMap now s.vectorStores) k' = none := hgone
  rw [hgone'] at h
  cases h

/-- Closed instance of C10: the session whose idle time is exactly one hour at
time 7200000 survives that sweep, while the session removed by it was strictly
older. -/
theorem cleanup_boundary_strict_witness :
    findEntry (cleanupOldFiles 7200000 boundaryState).vectorStores "f3" =
      some boundaryEntry ∧
    (boundaryEntry.filename ∈ boundaryState.uploads →
      boundaryEntry.filename ∈ (cleanupOldFiles 7200000 boundaryState).uploads) ∧
    staleEntry.timestamp < 7200000 - ttlMillis := by
  obtain ⟨h1, h2, h3⟩ :=
    cleanup_boundary_strict 7200000 boundaryState "f3" boundaryEntry boundaryState_wf rfl (by decide)
  exact ⟨h1, h2, h3 "f1" staleEntry rfl rfl⟩

/-- C6: a chat request that passes input validation but whose `fileId` does
not resolve to a live session — never produced by summarize, or already
evicted — receives a 404 NotFound response carrying no answer, and the server
state is left unmodified. -/
theorem chat_unknown_fileId_not_found (env : Env) (now : Int) (s : ServerState)
    (m fid : String) (hist : List Exchange)
    (hm : jsTrim m ≠ "") (hfid : fid ≠ "")
    (hnone : findEntry s.vectorStores fid = none) :
    chatStep env now (some m) (some fid) hist s =
      (ChatResult.notFound "Document not found. Please upload it again.", s) ∧
    (chatStep env now (some m) (some fid) hist s).1.status = 404 := by
  have h := chatStep_valid_unfold env now hm hfid hist s
  rw [hnone] at h
  exact ⟨h, by rw [h]; rfl⟩

/-- Closed instance of C6: chatting about a key never produced by summarize is
404 and leaves the state unchanged. -/
theorem chat_unknown_fileId_not_found_witness :
    chatStep testEnv 7200000 (some "hi") (some "nope") [] testState =
      (ChatResult.notFound "Document not found. Please upload it again.", testState) ∧
    (chatStep testEnv 7200000 (some "hi") (some "nope") [] testState).1.status = 404 :=
  chat_unknown_fileId_not_found testEnv 7200000 testState "hi" "nope" []
    (by decide) (by decide) rfl

/-- C7: a summarize request whose uploaded file is not a PDF is rejected by the
multer fileFilter and surfaces as a 415 response; no session is created — the
server state is unchanged and no entry for that upload exists afterwards. -/
theorem summarize_non_pdf_unsupported (env : Env) (now : Int) (s : ServerState)
    (f : UploadedFile) (hmt : f.mimetype ≠ "application/pdf") :
    summarizeStep env now (some f) s =
      (SummarizeResult.unsupportedMedia "Only PDF files are allowed", s) ∧
    (summarizeStep env now (some f) s).1.status = 415 ∧
    (findEntry s.vectorStores f.filename = none →
      findEntry (summarizeStep env now (some f) s).2.vectorStores f.filename = none) := by
  have h : summarizeStep env now (some f) s =
      (SummarizeResult.unsupportedMedia "Only PDF files are allowed", s) := by
    unfold summarizeStep
    simp [hmt]
  refine ⟨h, by rw [h]; rfl, fun hn => by rw [h]; exact hn⟩

/-- Closed instance of C7: uploading a text file yields 415 and the state is
untouched. -/
theorem summarize_non_pdf_unsupported_witness :
    summarizeStep testEnv 7200000 (some testTxt) testState =
      (SummarizeResult.unsupportedMedia "Only PDF files are allowed", testState) ∧
    (summarizeStep testEnv 7200000 (some testTxt) testState).1.status = 415 ∧
    (findEntry testState.vectorStores testTxt.filename = none →
      findEntry (summarizeStep testEnv 7200000 (some testTxt) testState).2.vectorStores
        testTxt.filename = none) :=
  summarize_non_pdf_unsupported testEnv 7200000 testState testTxt (by decide)

/-- C8: in the chat endpoint input validation precedes the session lookup: a
missing or whitespace-only message yields 400 `Message is required` whatever
`fileId` holds, a valid message with a missing or empty `fileId` yields 400
`FileId is required`, and in particular an empty message with an unknown
`fileId` yields 400, not 404. -/
theorem chat_validation_before_lookup (env : Env) (now : Int) (s : ServerState)
    (message fileId : Option String) (hist : List Exchange) :
    (falsy (message.map jsTrim) = true →
      chatStep env now message fileId hist s =
        (ChatResult.badRequest "Message is required", s)) ∧
    (falsy (message.map jsTrim) = false → falsy fileId = true →
      chatStep env now message fileId hist s =
        (ChatResult.badRequest "FileId is required", s)) ∧
    ∀ fid : String, findEntry s.vectorStores fid = none →
      (chatStep env now (some "") (some fid) hist s).1 =
        ChatResult.badRequest "Message is required" ∧
      (chatStep env now (some "") (some fid) hist s).1.status = 400 := by
  refine ⟨?_, ?_, ?_⟩
  · intro h1
    unfold chatStep
    rw [h1]
    rfl
  · intro h1 h2
    unfold chatStep
    rw [h1, h2]
    simp
  · intro fid hnone
    have h : chatStep env now (some "") (some fid) hist s =
        (ChatResult.badRequest "Message is required", s) := by
      unfold chatStep
      rfl
    exact ⟨by rw [h], by rw [h]; rfl⟩

/-- Closed instance of C8: a missing message is 400, a missing fileId is 400,
and an empty message with an unknown fileId is 400 rather than 404. -/
theorem chat_validation_before_lookup_witness :
    chatStep testEnv 7200000 none (some "f2") [] testState =
      (ChatResult.badRequest "Message is required", testState) ∧
    chatStep testEnv 7200000 (some "hi") none [] testState =
      (ChatResult.badRequest "FileId is required", testState) ∧
    (chatStep testEnv 7200000 (some "") (some "nope") [] testState).1 =
      ChatResult.badRequest "Message is required" ∧
    (chatStep testEnv 7200000 (some "") (some "nope") [] testState).1.status = 400 := by
  refine ⟨?_, ?_, ?_, ?_⟩
  · exact (chat_validation_before_lookup testEnv 7200000 testState none (some "f2") []).1 rfl
  · exact (chat_validation_before_lookup testEnv 7200000 testState (some "hi") none []).2.1
      (by decide) rfl
  · exact ((chat_validation_before_lookup testEnv 7200000 testState (some "") (some "nope")
      []).2.2 "nope" rfl).1
  · exact ((chat_validation_before_lookup testEnv 7200000 testState (some "") (some "nope")
      []).2.2 "nope" rfl).2

/-- C9: the summarize handler stores the session in the map — and keeps the
uploaded file on disk — before generating the summary, so when the
summary-generation model call fails and the endpoint answers 500, the entry
still exists with its timestamp set to the request time, the file is still in
the uploads directory, and a later chat request with that `fileId` does not
answer 404. -/
theorem summarize_stores_before_summary (env : Env) (now : Int) (s : ServerState)
    (f : UploadedFile) (docs rel : List String) (msg : String)
    (hmt : f.mimetype = "application/pdf") (hsize : f.size ≤ fileSizeLimit)
    (hdocs : f.docs = Except.ok docs) (hne : docs.length ≠ 0)
    (hrel : (env.buildStore docs).retrieve summaryQuestion 3 = Except.ok rel)
    (hqa : env.qa rel summaryQuestion = Except.error msg) :
    (summarizeStep env now (some f) s).1 = SummarizeResult.serverError msg ∧
    (summarizeStep env now (some f) s).1.status = 500 ∧
    findEntry (summarizeStep env now (some f) s).2.vectorStores f.filename =
      some ⟨env.buildStore docs, now, f.filename⟩ ∧
    f.filename ∈ (summarizeStep env now (some f) s).2.uploads ∧
    ∀ (env2 : Env) (now2 : Int) (m : String) (hist : List Exchange) (err : String),
      jsTrim m ≠ "" → f.filename ≠ "" →
      (chatStep env2 now2 (some m) (some f.filename) hist
        (summarizeStep env now (some f) s).2).1 ≠ ChatResult.notFound err := by
  have hstep : summarizeStep env now (some f) s =
      (SummarizeResult.serverError msg,
        { vectorStores := setEntry s.vectorStores f.filename
            ⟨env.buildStore docs, now, f.filename⟩,
          uploads := f.filename :: s.uploads }) := by
    unfold summarizeStep
    simp [hmt, Nat.not_lt.mpr hsize, hdocs, hne, hrel, hqa]
  have hfind : findEntry (summarizeStep env now (some f) s).2.vectorStores f.filename =
      some ⟨env.buildStore docs, now, f.filename⟩ := by
    rw [hstep]
    exact findEntry_setEntry_self _ _ _
  refine ⟨by rw [hstep], by rw [hstep]; rfl, hfind,
    by rw [hstep]; exact List.mem_cons_self _ _, ?_⟩
  intro env2 now2 m hist err hm hf
  rw [chatStep_valid_unfold env2 now2 hm hf hist _]
  simp only [hfind]
  split
  · intro hcontra
    cases hcontra
  split
  · intro hcontra
    cases hcontra
  · intro hcontra
    cases hcontra

/-- Closed instance of C9: with a failing summary chain the endpoint answers
500 yet the session exists with the request timestamp, the file is on disk,
and a later chat on the key is not 404. -/
theorem summarize_stores_before_summary_witness :
    (summarizeStep failEnv 7200000 (some testPdf) testState).1 =
      SummarizeResult.serverError "model down" ∧
    (summarizeStep failEnv 7200000 (some testPdf) testState).1.status = 500 ∧
    findEntry (summarizeStep failEnv 7200000 (some testPdf) testState).2.vectorStores
      testPdf.filename =
      some ⟨failEnv.buildStore ["page one"], 7200000, testPdf.filename⟩ ∧
    testPdf.filename ∈ (summarizeStep failEnv 7200000 (some testPdf) testState).2.uploads ∧
    (chatStep testEnv 7300000 (some "hi") (some testPdf.filename) []
      (summarizeStep failEnv 7200000 (some testPdf) testState).2).1 ≠
      ChatResult.notFound "Document not found. Please upload it again." := by
  obtain ⟨h1, h2, h3, h4, h5⟩ :=
    summarize_stores_before_summary failEnv 7200000 testState testPdf ["page one"]
      ["alpha", "beta", "gamma"] "model down" rfl (by decide) rfl (by decide) rfl rfl
  exact ⟨h1, h2, h3, h4,
    h5 testEnv 7300000 "hi" [] "Document not found. Please upload it again."
      (by decide) (by decide)⟩

/-- C4: for a chat request with a non-empty message, a resolvable `fileId` and
a supplied sequence of prior turns, the prompt forwarded to the language model
is exactly the system instruction, then every supplied prior turn in order as
human/assistant message pairs, then the new query with the top 3 retrieved
chunks joined as its context — so the prior turns are forwarded to the model,
not dropped. -/
theorem chat_forwards_history_in_prompt (env : Env) (now : Int) (s : ServerState)
    (m fid : String) (hist : List Exchange) (d : SessionEntry)
    (rel : List String) (ans : String)
    (hm : jsTrim m ≠ "") (hfid : fid ≠ "")
    (hfind : findEntry s.vectorStores fid = some d)
    (hrel : d.store.retrieve (jsTrim m) 3 = Except.ok rel)
    (hllm : env.llm (chatPrompt (String.intercalate "\n" rel) (jsTrim m) hist) =
      Except.ok ans) :
    (chatStep env now (some m) (some fid) hist s).1 =
      ChatResult.ok
        (PromptMessage.mk .system systemInstruction ::
          (formattedHistory hist ++
            [PromptMessage.mk .human
              ("Context: " ++ String.intercalate "\n" rel ++
                "\n\nQuestion: " ++ jsTrim m)]))
        (jsTrim ans) now ∧
    formattedHistory hist =
      (hist.map (fun ex =>
        [PromptMessage.mk .human ex.question,
         PromptMessage.mk .assistant ex.answer])).flatten ∧
    List.IsInfix (formattedHistory hist)
      (chatPrompt (String.intercalate "\n" rel) (jsTrim m) hist) := by
  refine ⟨?_, rfl, ?_⟩
  · rw [chatStep_valid_unfold env now hm hfid hist s]
    simp only [hfind, hrel, hllm]
    rfl
  · exact ⟨[PromptMessage.mk .system systemInstruction],
      [PromptMessage.mk .human
        ("Context: " ++ String.intercalate "\n" rel ++ "\n\nQuestion: " ++ jsTrim m)],
      rfl⟩

/-- Closed instance of C4: with one prior turn supplied, the model receives the
system message, the human/assistant pair of that turn, and the new question
with the three retrieved chunks. -/
theorem chat_forwards_history_in_prompt_witness :
    (chatStep testEnv 7200000 (some "hello") (some "f2")
        [Exchange.mk "q1" "a1"] testState).1 =
      ChatResult.ok
        (PromptMessage.mk .system systemInstruction ::
          (formattedHistory [Exchange.mk "q1" "a1"] ++
            [PromptMessage.mk .human
              ("Context: " ++ String.intercalate "\n" ["alpha", "beta", "gamma"] ++
                "\n\nQuestion: " ++ jsTrim "hello")]))
        (jsTrim " the answer ") 7200000 ∧
    formattedHistory [Exchange.mk "q1" "a1"] =
      ([Exchange.mk "q1" "a1"].map (fun ex =>
        [PromptMessage.mk .human ex.question,
         PromptMessage.mk .assistant ex.answer])).flatten ∧
    List.IsInfix (formattedHistory [Exchange.mk "q1" "a1"])
      (chatPrompt (String.intercalate "\n" ["alpha", "beta", "gamma"])
        (jsTrim "hello") [Exchange.mk "q1" "a1"]) :=
  chat_forwards_history_in_prompt testEnv 7200000 testState "hello" "f2"
    [Exchange.mk "q1" "a1"] freshEntry ["alpha", "beta", "gamma"] " the answer "
    (by decide) (by decide) rfl rfl rfl

theorem summarizeStep_ok_snd (env : Env) (now : Int) (f : UploadedFile)
    (s : ServerState) (summary fid : String)
    (h : (summarizeStep env now (some f) s).1 = SummarizeResult.ok summary fid) :
    ∃ docs, f.docs = Except.ok docs ∧ fid = f.filename ∧
      summarizeStep env now (some f) s =
        (SummarizeResult.ok summary f.filename,
          { vectorStores := setEntry s.vectorStores f.filename
              ⟨env.buildStore docs, now, f.filename⟩,
            uploads := f.filename :: s.uploads }) := by
  by_cases h1 : f.mimetype ≠ "application/pdf"
  · have hbad : (summarizeStep env now (some f) s).1 =
        SummarizeResult.unsupportedMedia "Only PDF files are allowed" := by
      unfold summarizeStep
      simp [h1]
    rw [hbad] at h
    simp at h
  by_cases h2 : fileSizeLimit < f.size
  · have hbad : (summarizeStep env now (some f) s).1 =
        SummarizeResult.payloadTooLarge "File size too large. Maximum size is 10MB." := by
      unfold summarizeStep
      simp [h1, h2]
    rw [hbad] at h
    simp at h
  rcases hdocs : f.docs with msg | docs
  · have hbad : (summarizeStep env now (some f) s).1 = SummarizeResult.serverError msg := by
      unfold summarizeStep
      simp [h1, h2, hdocs]
    rw [hbad] at h
    simp at h
  by_cases h3 : docs.length = 0
  · have hbad : (summarizeStep env now (some f) s).1 =
        SummarizeResult.serverError "No content found in the PDF" := by
      unfold summarizeStep
      simp [h1, h2, hdocs, h3]
    rw [hbad] at h
    simp at h
  rcases hrel : (env.buildStore docs).retrieve summaryQuestion 3 with msg | rel
  · have hbad : (summarizeStep env now (some f) s).1 = SummarizeResult.serverError msg := by
      unfold summarizeStep
      simp [h1, h2, hdocs, h3, hrel]
    rw [hbad] at h
    simp at h
  rcases hqa : env.qa rel summaryQuestion with msg | text
  · have hbad : (summarizeStep env now (some f) s).1 = SummarizeResult.serverError msg := by
      unfold summarizeStep
      simp [h1, h2, hdocs, h3, hrel, hqa]
    rw [hbad] at h
    simp at h
  · have hstep : summarizeStep env now (some f) s =
        (SummarizeResult.ok text f.filename,
          { vectorStores := setEntry s.vectorStores f.filename
              ⟨env.buildStore docs, now, f.filename⟩,
            uploads := f.filename :: s.uploads }) := by
      unfold summarizeStep
      simp [h1, h2, hdocs, h3, hrel, hqa]
    rw [hstep] at h
    simp only [SummarizeResult.ok.injEq] at h
    refine ⟨docs, rfl, h.2.symm, ?_⟩
    rw [hstep, h.1]

/-- C5: a session's `lastAccess` timestamp is refreshed to the current time on
every successful summarize (write) and on every chat request that reaches its
session — before retrieval begins, so the refresh holds even if the later
retrieval or completion fails — and across any event occurring at or after the
stored time, the timestamp of a session that stays live never decreases. -/
theorem lastAccess_refreshed_and_monotone :
    (∀ (env : Env) (now : Int) (s : ServerState) (f : UploadedFile)
      (summary fid : String),
      (summarizeStep env now (some f) s).1 = SummarizeResult.ok summary fid →
      ∃ e, findEntry (summarizeStep env now (some f) s).2.vectorStores fid = some e ∧
        e.timestamp = now) ∧
    (∀ (env : Env) (now : Int) (s : ServerState) (m fid : String)
      (hist : List Exchange) (d : SessionEntry),
      jsTrim m ≠ "" → fid ≠ "" →
      findEntry s.vectorStores fid = some d →
      findEntry (chatStep env now (some m) (some fid) hist s).2.vectorStores fid =
        some { d with timestamp := now }) ∧
    (∀ (env : Env) (now : Int) (ev : Event) (s : ServerState) (k : String)
      (e e' : SessionEntry),
      (s.vectorStores.map Prod.fst).Nodup →
      findEntry s.vectorStores k = some e → e.timestamp ≤ now →
      findEntry (stepState env now ev s).vectorStores k = some e' →
      e.timestamp ≤ e'.timestamp) := by
  refine ⟨?_, ?_, ?_⟩
  · intro env now s f summary fid hok
    obtain ⟨docs, hdocs, hfid, hstep⟩ :=
      summarizeStep_ok_snd env now f s summary fid hok
    subst hfid
    refine ⟨⟨env.buildStore docs, now, f.filename⟩, ?_, rfl⟩
    rw [hstep]
    exact findEntry_setEntry_self _ _ _
  · intro env now s m fid hist d hm hfid hfind
    rw [chatStep_valid_unfold env now hm hfid hist s]
    simp only [hfind]
    split
    · exact findEntry_setEntry_self _ _ _
    split
    · exact findEntry_setEntry_self _ _ _
    · exact findEntry_setEntry_self _ _ _
  · intro env now ev s k e e' hnd hfind hle hpost
    cases ev with
    | summarize file =>
      simp only [stepState] at hpost
      rcases summarizeStep_vectorStores env now file s with hsame | ⟨f, docs, hfile, hdocs, heq⟩
      · rw [hsame, hfind] at hpost
        injection hpost with h
        rw [h]
      · rw [heq] at hpost
        by_cases hk : k = f.filename
        · subst hk
          rw [findEntry_setEntry_self] at hpost
          injection hpost with h
          rw [← h]
          exact hle
        · rw [findEntry_setEntry_ne hk, hfind] at hpost
          injection hpost with h
          rw [h]
    | chat ms fileId hist =>
      simp only [stepState] at hpost
      rcases chatStep_snd env now ms fileId hist s with hsame | ⟨d, hfd, heq⟩
      · rw [hsame, hfind] at hpost
        injection hpost with h
        rw [h]
      · rw [heq] at hpost
        by_cases hk : k = fileId.getD ""
        · subst hk
          rw [findEntry_setEntry_self] at hpost
          injection hpost with h
          rw [← h]
          exact hle
        · rw [findEntry_setEntry_ne hk, hfind] at hpost
          injection hpost with h
          rw [h]
    | sweep =>
      simp only [stepState] at hpost
      have hm := mem_sweepMap (findEntry_mem hpost)
      have he : e' = e := mem_unique_of_nodup_keys hnd hm.1 (findEntry_mem hfind)
      rw [he]

/-- Closed instance of C5: a successful summarize stores timestamp 7200000, a
chat at time 7200000 refreshes the touched session to 7200000, and a sweep
leaves a live session's timestamp unchanged. -/
theorem lastAccess_refreshed_and_monotone_witness :
    (findEntry (summarizeStep testEnv 7200000 (some testPdf) testState).2.vectorStores
        "f9").map SessionEntry.timestamp = some 7200000 ∧
    findEntry (chatStep testEnv 7200000 (some "hi") (some "f2") [] testState).2.vectorStores
      "f2" = some { freshEntry with timestamp := 7200000 } ∧
    freshEntry.timestamp ≤ freshEntry.timestamp := by
  refine ⟨?_, ?_, ?_⟩
  · obtain ⟨e, he, ht⟩ := lastAccess_refreshed_and_monotone.1 testEnv 7200000 testState
      testPdf "a summary" "f9" rfl
    rw [he]
    simp [ht]
  · exact lastAccess_refreshed_and_monotone.2.1 testEnv 7200000 testState "hi" "f2" []
      freshEntry (by decide) (by decide) rfl
  · exact lastAccess_refreshed_and_monotone.2.2 testEnv 7200000 Event.sweep testState "f2"
      freshEntry freshEntry (by decide) rfl (by decide) rfl
